import Mathlib

/-!
Verification of the cache / security core of the pdfwordtopic repository.

The embedding below translates `src/cache_manager.py` (class `CacheManager`)
and the validation / encryption entry points of `src/security_manager.py` and
`src/security.py` (both named `SecurityManager` in Python) into Lean.

Modelling conventions:
* Byte strings are `List Nat`; file contents scanned by the heuristic
  malicious-content check are `String` (the scanned patterns are ASCII).
* Epoch timestamps (`time.time()`) are `Int` (the code only compares and
  subtracts them).
* The on-disk cache directory is a pair of association lists: blob files keyed
  by the hashed storage id, and the `metadata.json` index keyed by the logical
  key, plus the byte size of the `metadata.json` file itself
  (`_get_cache_size` sums the sizes of *all* files in the directory, so the
  metadata file participates in the size accounting).
* `hashlib.sha256(key).hexdigest()` and `json.dump` are external library
  functions; they enter the model as the `hash` and `jsonSize` fields of
  `Config` (the digest as an abstract key-to-filename function, the JSON
  serialisation only through the byte size it produces).  Theorems that need
  properties of these functions (distinct digests for distinct keys, bounds on
  the serialised size) take them as hypotheses, and concrete witnesses
  instantiate them.
* Each `try/except` block of the Python source becomes an explicit fault
  point, driven by a `FaultOracle` that says which primitive I/O operation
  raises.  `CacheManager.get` / `CacheManager.set` with no faults are the
  fault-free wrappers at the bottom of the cache section.
-/

namespace PdfWordToPic

/-- Association list lookup: Python `dict.get(k)` on a dict represented as an
ordered list of key/value pairs. -/
def alLookup {α : Type} (m : List (String × α)) (k : String) : Option α :=
  (m.find? (fun p => p.1 == k)).map (fun p => p.2)

/-- Association list update: Python `d[k] = v`.  Replaces the value in place
when the key is present (keeping its position, as Python dicts do) and appends
at the end otherwise. -/
def alInsert {α : Type} : List (String × α) → String → α → List (String × α)
  | [], k, v => [(k, v)]
  | p :: ps, k, v => if p.1 == k then (k, v) :: ps else p :: alInsert ps k v

/-- Association list removal: Python `d.pop(k, None)`. -/
def alErase {α : Type} (m : List (String × α)) (k : String) : List (String × α) :=
  m.filter (fun p => !(p.1 == k))

/-- A cache index entry: the `{'timestamp': ..., 'size': ...}` record stored in
`metadata.json` (caller-supplied extra fields are not consulted by any of the
cache operations and are omitted). -/
structure Entry where
  timestamp : Int
  size : Nat
deriving DecidableEq, Repr

/-- The on-disk state of one cache directory. -/
structure CacheState where
  blobs : List (String × List Nat)
  metadata : List (String × Entry)
  metaFileSize : Nat
deriving DecidableEq, Repr

/-- Construction parameters of `CacheManager` plus the two external library
functions the class calls: `hash` is `sha256(key.encode()).hexdigest()` from
`_get_cache_path`, and `jsonSize` is the byte size `json.dump` produces for a
given index (only the size of `metadata.json` matters to the cache logic). -/
structure Config where
  maxSizeBytes : Nat
  ttlSeconds : Int
  hash : String → String
  jsonSize : List (String × Entry) → Nat

/-- Which primitive I/O operation raises, one flag per `try`-protected call
site of `cache_manager.py`. -/
structure FaultOracle where
  readBlobFault : Bool
  writeBlobFault : Bool
  statFault : Bool
  saveMetaFault : Bool
  unlinkFault : Bool
  sizeFault : Bool
deriving DecidableEq, Repr

/-- The expiry test on line 47 of `cache_manager.py`
(`time.time() - metadata.get('timestamp', 0) > self.ttl_seconds` inside
`get`). -/
def getExpiredCheck (now ts ttl : Int) : Bool := ttl < now - ts

/-- The expiry test on line 156 of `cache_manager.py`
(`current_time - data.get('timestamp', 0) > self.ttl_seconds` inside
`_cleanup_expired`). -/
def sweepExpiredCheck (now ts ttl : Int) : Bool := ttl < now - ts

/-- The sum of the sizes of the blob files. -/
def blobsSize (bs : List (String × List Nat)) : Nat :=
  (bs.map (fun p => p.2.length)).sum

/-- `CacheManager._get_cache_size`: total size of every file in the cache
directory, blob files and `metadata.json` alike. -/
def getCacheSize (s : CacheState) : Nat := blobsSize s.blobs + s.metaFileSize

/-- `CacheManager._save_metadata` with its internal `try/except`: on success
the persisted `metadata.json` now has the serialised size of the in-memory
index; on an I/O fault the exception is caught inside `_save_metadata`, which
returns `False`, and the file keeps its previous size. -/
def saveMetadataF (o : FaultOracle) (c : Config) (s : CacheState) : Bool × CacheState :=
  if o.saveMetaFault then (false, s)
  else (true, { s with metaFileSize := c.jsonSize s.metadata })

/-- `CacheManager._remove_item` with its internal `try/except`: unlink the
blob if it is present (an unlink fault is caught here and leaves the state
untouched, returning `False`), drop the index entry, persist the index
(`_save_metadata` swallows its own faults) and return `True`. -/
def removeItemF (o : FaultOracle) (c : Config) (s : CacheState) (key : String) :
    Bool × CacheState :=
  if o.unlinkFault && (alLookup s.blobs (c.hash key)).isSome then (false, s)
  else
    let s2 : CacheState :=
      { s with blobs := alErase s.blobs (c.hash key), metadata := alErase s.metadata key }
    (true, (saveMetadataF o c s2).2)

/-- `CacheManager.get` body: derive the blob path; miss if the blob file does
not exist; read the timestamp from the index (`metadata.get(key, {})` with
default timestamp `0`); if expired, remove the entry and miss; otherwise read
and return the blob.  A fault while reading the blob is caught by the
method's `except` and converted to a miss. -/
def getF (o : FaultOracle) (c : Config) (s : CacheState) (now : Int) (key : String) :
    Option (List Nat) × CacheState :=
  match alLookup s.blobs (c.hash key) with
  | none => (none, s)
  | some blob =>
    let ts : Int :=
      match alLookup s.metadata key with
      | some e => e.timestamp
      | none => 0
    if getExpiredCheck now ts c.ttlSeconds then
      (none, (removeItemF o c s key).2)
    else if o.readBlobFault then (none, s)
    else (some blob, s)

/-- Stable insertion into a list sorted by ascending timestamp: the new pair
goes after every pair whose timestamp is less than or equal to its own. -/
def insertByTs (a : String × Entry) : List (String × Entry) → List (String × Entry)
  | [] => [a]
  | b :: bs => if b.2.timestamp ≤ a.2.timestamp then b :: insertByTs a bs else a :: b :: bs

/-- Python's stable `sorted(self.metadata.items(), key=lambda x: x[1].get('timestamp', 0))`. -/
def sortByTimestamp (m : List (String × Entry)) : List (String × Entry) :=
  m.foldl (fun acc a => insertByTs a acc) []

/-- The stop condition of the eviction loop: `self.max_size_bytes * 0.8`
(20% headroom); with integer sizes `current_size <= max * 0.8` coincides with
comparison against the floor of that product. -/
def evictThreshold (c : Config) : Nat := c.maxSizeBytes * 8 / 10

/-- The loop of `_cleanup_old_items`: walk the snapshot sorted by timestamp;
stop as soon as the tracked size is within the threshold; otherwise remove the
item and, when removal succeeded, subtract its recorded size. -/
def evictLoopF (o : FaultOracle) (c : Config) :
    List (String × Entry) → Int → CacheState → CacheState
  | [], _, s => s
  | (key, e) :: rest, cur, s =>
    if cur ≤ (evictThreshold c : Int) then s
    else
      let r := removeItemF o c s key
      evictLoopF o c rest (if r.1 then cur - (e.size : Int) else cur) r.2

/-- `CacheManager._cleanup_old_items`: nothing to do on an empty index;
otherwise sort the entries by ascending timestamp and evict oldest-first until
the total size is at most 80% of the ceiling. -/
def cleanupOldItemsF (o : FaultOracle) (c : Config) (s : CacheState) : CacheState :=
  if s.metadata.isEmpty then s
  else evictLoopF o c (sortByTimestamp s.metadata) ((getCacheSize s : Int)) s

/-- `CacheManager.set` body: if the current total size (measured before the
new blob is written) exceeds the ceiling, run the eviction sweep; write the
blob; record `{'timestamp': now, 'size': stat().st_size}` in the index;
persist the index.  A fault in the size computation, the blob write or the
stat is caught by the method's `except` and yields `False`; `_save_metadata`
catches its own faults, so `set` still returns `True` when only the index
persist fails.  The claims concern byte payloads, for which the written blob
is the payload itself and its stat size is the payload length. -/
def setF (o : FaultOracle) (c : Config) (s : CacheState) (now : Int) (key : String)
    (v : List Nat) : Bool × CacheState :=
  if o.sizeFault then (false, s)
  else
    let s1 := if getCacheSize s > c.maxSizeBytes then cleanupOldItemsF o c s else s
    if o.writeBlobFault then (false, s1)
    else
      let s2 : CacheState := { s1 with blobs := alInsert s1.blobs (c.hash key) v }
      if o.statFault then (false, s2)
      else
        let s3 : CacheState :=
          { s2 with metadata := alInsert s2.metadata key ⟨now, v.length⟩ }
        (true, (saveMetadataF o c s3).2)

/-- The all-clear oracle: no I/O operation raises. -/
def noFaults : FaultOracle := ⟨false, false, false, false, false, false⟩

/-- `CacheManager.get` on a fault-free filesystem. -/
def CacheManager.get (c : Config) (s : CacheState) (now : Int) (key : String) :
    Option (List Nat) × CacheState :=
  getF noFaults c s now key

/-- `CacheManager.set` on a fault-free filesystem. -/
def CacheManager.set (c : Config) (s : CacheState) (now : Int) (key : String)
    (v : List Nat) : Bool × CacheState :=
  setF noFaults c s now key v

/-- `CacheManager._remove_item` on a fault-free filesystem. -/
def removeItem (c : Config) (s : CacheState) (key : String) : Bool × CacheState :=
  removeItemF noFaults c s key

/-- `CacheManager._cleanup_old_items` on a fault-free filesystem. -/
def cleanupOldItems (c : Config) (s : CacheState) : CacheState :=
  cleanupOldItemsF noFaults c s

/-- `CacheManager._cleanup_expired`, the cold sweep run once at construction:
collect the keys whose entry satisfies the expiry test, then remove each. -/
def cleanupExpired (c : Config) (s : CacheState) (now : Int) : CacheState :=
  let expiredKeys :=
    (s.metadata.filter (fun p => sweepExpiredCheck now p.2.timestamp c.ttlSeconds)).map
      (fun p => p.1)
  expiredKeys.foldl (fun st k => (removeItemF noFaults c st k).2) s

/-- A cache directory just created by the constructor: no blobs, empty index,
no `metadata.json` on disk yet. -/
def emptyCache : CacheState := { blobs := [], metadata := [], metaFileSize := 0 }

/-- The error raised by a failed decryption. -/
inductive CryptoError where
  | invalidToken
deriving DecidableEq, Repr

/-- Modelled from the spec: the Fernet scheme comes from the external
`cryptography` library, not from this repository's sources.  The spec
describes it as "authenticated symmetric encryption: a single-key scheme
providing both confidentiality and tamper detection", so encryption under key
`k` produces a token that decryption accepts exactly when it was produced
under the same `k`.  The token is modelled as the key prepended to the
payload; what matters to the claims is only which byte strings round-trip. -/
def fernetEncrypt (key : Nat) (data : List Nat) : List Nat := key :: data

/-- Modelled from the spec: Fernet decryption accepts exactly the tokens
produced by `fernetEncrypt` under the same key and raises `InvalidToken` on
every other byte string — all-or-nothing, never partial output. -/
def fernetDecrypt (key : Nat) (tok : List Nat) : Except CryptoError (List Nat) :=
  match tok with
  | [] => .error .invalidToken
  | k :: rest => if k = key then .ok rest else .error .invalidToken

/-- `SecurityManager.encrypt_data` of `src/security_manager.py`: calls
`self.fernet.encrypt(data)`; an exception is logged and re-raised. -/
def SecurityManager.encrypt_data (key : Nat) (data : List Nat) : List Nat :=
  fernetEncrypt key data

/-- `SecurityManager.decrypt_data` of `src/security_manager.py`: calls
`self.fernet.decrypt(encrypted_data)`; an exception is logged and re-raised,
so the failure reaches the caller as the library's own error. -/
def SecurityManager.decrypt_data (key : Nat) (tok : List Nat) :
    Except CryptoError (List Nat) :=
  match fernetDecrypt key tok with
  | .ok d => .ok d
  | .error e => .error e

/-- A byte-by-byte matching test: does `s` start with `pat`? -/
def listStarts : List Char → List Char → Bool
  | [], _ => true
  | _ :: _, [] => false
  | p :: ps, c :: cs => p == c && listStarts ps cs

/-- Split a character list at the first occurrence of `pat`: the part before
and the part after it, or `none` when `pat` does not occur. -/
def splitFirst (pat : List Char) : List Char → Option (List Char × List Char)
  | [] => if pat.isEmpty then some ([], []) else none
  | c :: cs =>
    if listStarts pat (c :: cs) then some ([], (c :: cs).drop pat.length)
    else
      match splitFirst pat cs with
      | some (pre, post) => some (c :: pre, post)
      | none => none

/-- The scheme test on line 92 of `src/security_manager.py`:
`re.match(r'^https?://', url)`, i.e. the URL starts with `http://` or
`https://`. -/
def schemeOk (url : String) : Bool :=
  listStarts "http://".toList url.toList || listStarts "https://".toList url.toList

/-- The `netloc` of `urllib.parse.urlparse` for URLs of the `scheme://...`
shape consumed here: the text between `://` and the next `/`. -/
def urlNetloc (url : String) : String :=
  match splitFirst "://".toList url.toList with
  | some (_, rest) => String.mk (rest.takeWhile (fun c => !(c == '/')))
  | none => ""

/-- The answer of the HEAD probe (`requests.head`): status code and the
`content-length` / `content-type` headers.  A probe that raises is `none`. -/
structure HeadResponse where
  statusCode : Nat
  contentLength : Option Nat
  contentType : String
deriving DecidableEq, Repr

/-- Python `response.headers.get('content-type', '').split(';')[0]`: the part
of the header before the first `;`. -/
def contentTypeMain (ct : String) : String :=
  String.mk (ct.toList.takeWhile (fun c => !(c == ';')))

/-- The allow-listed media types of `src/security_manager.py`
(`self.allowed_mime_types`). -/
def allowedMimeTypes : List String :=
  ["application/pdf", "application/msword",
   "application/vnd.openxmlformats-officedocument.wordprocessingml.document",
   "text/html", "text/plain"]

/-- `self.max_file_size = 100 * 1024 * 1024` of `src/security_manager.py`. -/
def maxFileSize : Nat := 100 * 1024 * 1024

/-- `self.max_url_size = 10 * 1024 * 1024` of `src/security_manager.py`. -/
def maxUrlSize : Nat := 10 * 1024 * 1024

/-- `SecurityManager.validate_url` of `src/security_manager.py`.  The probe is
the external HTTP client; the second component of the result records whether
the probe was consulted, i.e. whether any network request was made.  Checks
in source order: scheme, blocked domain, HEAD status, content length, content
type; a probe exception is caught by the method's `except` and yields
`False`. -/
def SecurityManager.validate_url (blocked : List String)
    (probe : String → Option HeadResponse) (url : String) : Bool × Bool :=
  if !(schemeOk url) then (false, false)
  else if blocked.contains (urlNetloc url) then (false, false)
  else
    match probe url with
    | none => (false, true)
    | some r =>
      let overSize : Bool :=
        match r.contentLength with
        | some n => decide (maxUrlSize < n)
        | none => false
      if r.statusCode ≠ 200 then (false, true)
      else if overSize then (false, true)
      else if !(allowedMimeTypes.contains (contentTypeMain r.contentType)) then (false, true)
      else (true, true)

/-- `SecurityManager.validate_url` of `src/security.py`, the variant not used
by the converter pipeline: `urlparse(url)` followed by
`all([result.scheme, result.netloc])` — it only requires a nonempty scheme
and a nonempty network location, with no scheme restriction and no probe. -/
def Security.validate_url (url : String) : Bool :=
  match splitFirst "://".toList url.toList with
  | some (scheme, rest) =>
    !scheme.isEmpty && !(rest.takeWhile (fun c => !(c == '/'))).isEmpty
  | none => false

/-- Does `pat` occur contiguously somewhere in `s`?  This is Python's
`pat in content` on byte strings. -/
def listHasPattern (pat : List Char) : List Char → Bool
  | [] => pat.isEmpty
  | c :: cs => listStarts pat (c :: cs) || listHasPattern pat cs

/-- Substring occurrence on strings, used for the risky-pattern scan. -/
def strHasSub (pat s : String) : Bool := listHasPattern pat.toList s.toList

/-- `SecurityManager._contains_malicious_content` of `src/security_manager.py`:
scan the raw bytes for script tags, dynamic-code-execution markers and
shell-invocation tokens.  (The read fault that makes the real method return
`True` "when in doubt" is not needed by the claims.) -/
def containsMaliciousContent (content : String) : Bool :=
  strHasSub "<script" content || strHasSub "javascript:" content ||
  strHasSub "eval(" content || strHasSub "exec(" content ||
  strHasSub "system(" content || strHasSub "shell_exec(" content

/-- What `SecurityManager.validate_file` observes about a candidate file:
whether the path exists, its `stat().st_size`, the media type reported by the
external detector (`magic.from_file`), and the raw content read by the
heuristic scan. -/
structure FileModel where
  pathExists : Bool
  size : Nat
  mime : String
  content : String
deriving DecidableEq, Repr

/-- `SecurityManager.validate_file` of `src/security_manager.py`, in source
order: existence, size ceiling (strict `>` rejection, so a file exactly at
the ceiling passes this check), media-type allow-list, risky-pattern scan. -/
def SecurityManager.validate_file (f : FileModel) : Bool :=
  if !f.pathExists then false
  else if maxFileSize < f.size then false
  else if !(allowedMimeTypes.contains f.mime) then false
  else if containsMaliciousContent f.content then false
  else true

/-- A concrete configuration for the closed scenarios: ceiling 1000 bytes,
one-hour TTL; the digest stands in as the identity (deterministic and
collision-free on the keys used, the two properties of sha256 the scenarios
rely on) and the serialised index size grows 50 bytes per entry on a
2-byte envelope, a realistic magnitude for the JSON records at hand. -/
def demoConfig : Config :=
  { maxSizeBytes := 1000, ttlSeconds := 3600, hash := fun k => k,
    jsonSize := fun m => 2 + 50 * m.length }

/-- A 600-byte payload. -/
def v600 : List Nat := List.replicate 600 7

/-- The state after `set("a", 600B)` at time 100 then `set("b", 600B)` at
time 101 on a fresh cache with ceiling 1000. -/
def c2After : CacheState :=
  (CacheManager.set demoConfig
    (CacheManager.set demoConfig emptyCache 100 "a" v600).2 101 "b" v600).2

/-- A one-entry cache state: blob and index entry for key `k`, written at
time 10 with 2 bytes. -/
def c9State : CacheState :=
  { blobs := [("k", [1, 2])], metadata := [("k", ⟨10, 2⟩)], metaFileSize := 52 }

/-- A state holding an orphan blob for key `k`: the blob file is on disk but
the index has no record of the key. -/
def c10State : CacheState :=
  { blobs := [("k", [5])], metadata := [], metaFileSize := 2 }

/-- An oracle where only the `metadata.json` persist raises. -/
def saveFaultOracle : FaultOracle := ⟨false, false, false, true, false, false⟩

/-- An oracle where only the blob write raises. -/
def writeFaultOracle : FaultOracle := ⟨false, true, false, false, false, false⟩

/-- An oracle where only the blob read raises. -/
def readFaultOracle : FaultOracle := ⟨true, false, false, false, false, false⟩

/-- A probe standing in for any HTTP client answer. -/
def demoProbe : String → Option HeadResponse :=
  fun _ => some ⟨200, some 5, "application/pdf"⟩

end PdfWordToPic

namespace PdfWordToPic

theorem alLookup_alInsert_self {α : Type} (m : List (String × α)) (k : String) (v : α) :
    alLookup (alInsert m k v) k = some v := by
  induction m with
  | nil => simp [alInsert, alLookup, List.find?]
  | cons p ps ih =>
    cases hbe : p.1 == k
    · simpa [alInsert, alLookup, List.find?, hbe] using ih
    · simp [alInsert, alLookup, List.find?, hbe]

theorem alLookup_alErase_self {α : Type} (m : List (String × α)) (k : String) :
    alLookup (alErase m k) k = none := by
  induction m with
  | nil => simp [alErase, alLookup, List.find?]
  | cons p ps ih =>
    cases hbe : p.1 == k
    · simp [alErase, alLookup, List.find?, List.filter_cons, hbe] at ih ⊢
    · simp [alErase, alLookup, List.find?, List.filter_cons, hbe] at ih ⊢

theorem alErase_absent {α : Type} : ∀ (m : List (String × α)) (k : String),
    alLookup m k = none → alErase m k = m := by
  intro m k
  induction m with
  | nil => intro _; rfl
  | cons p ps ih =>
    intro h
    cases hbe : p.1 == k
    · have h2 : alLookup ps k = none := by
        simpa [alLookup, List.find?, hbe] using h
      have h3 := ih h2
      simp [alErase, List.filter_cons, hbe] at h3 ⊢
      exact h3
    · exfalso
      simp [alLookup, List.find?, hbe] at h

/-- C1: for every key `k` and byte payload `v`, a successful `set(k, v)`
followed immediately (same clock reading, no intervening operation) by
`get(k)` returns exactly `v`; `set` indeed reports success.  The TTL is
nonnegative, so the just-written entry of age zero is not expired. -/
theorem set_then_get_roundtrip (c : Config) (s : CacheState) (now : Int) (k : String)
    (v : List Nat) (httl : 0 ≤ c.ttlSeconds) :
    (CacheManager.set c s now k v).1 = true ∧
    (CacheManager.get c (CacheManager.set c s now k v).2 now k).1 = some v := by
  constructor
  · simp [CacheManager.set, setF, noFaults]
  · simp [CacheManager.set, CacheManager.get, setF, getF, noFaults, saveMetadataF,
      alLookup_alInsert_self, getExpiredCheck]
    rw [if_neg (by omega)]

/-- C1 witness: the round trip at a concrete key, payload, state and clock. -/
theorem set_then_get_roundtrip_witness :
    (CacheManager.set demoConfig emptyCache 100 "k" [3, 1, 4]).1 = true ∧
    (CacheManager.get demoConfig
      (CacheManager.set demoConfig emptyCache 100 "k" [3, 1, 4]).2 100 "k").1 = some [3, 1, 4] :=
  set_then_get_roundtrip demoConfig emptyCache 100 "k" [3, 1, 4] (by decide)

/-- C3: an entry set at `t0` is still returned at `t0 + ttl - 1`; at
`t0 + ttl + 1` the same `get` is a miss that removes the entry (index record
and blob file) as a side effect; and the per-key expiry test inside `get` and
the cold-sweep test of `_cleanup_expired` compute the same decision from the
same condition `now - createdAt > ttlSeconds`. -/
theorem ttl_boundary (c : Config) (s : CacheState) (t0 : Int) (k : String) (v : List Nat) :
    (CacheManager.get c (CacheManager.set c s t0 k v).2 (t0 + c.ttlSeconds - 1) k).1 = some v ∧
    (CacheManager.get c (CacheManager.set c s t0 k v).2 (t0 + c.ttlSeconds + 1) k).1 = none ∧
    alLookup (CacheManager.get c (CacheManager.set c s t0 k v).2
      (t0 + c.ttlSeconds + 1) k).2.metadata k = none ∧
    alLookup (CacheManager.get c (CacheManager.set c s t0 k v).2
      (t0 + c.ttlSeconds + 1) k).2.blobs (c.hash k) = none ∧
    (∀ now ts ttl : Int, getExpiredCheck now ts ttl = sweepExpiredCheck now ts ttl) := by
  refine ⟨?_, ?_, ?_, ?_, fun now ts ttl => rfl⟩
  · simp [CacheManager.set, CacheManager.get, setF, getF, noFaults, saveMetadataF,
      alLookup_alInsert_self, getExpiredCheck]
    rw [if_neg (by omega)]
  · simp [CacheManager.set, CacheManager.get, setF, getF, noFaults, saveMetadataF,
      alLookup_alInsert_self, getExpiredCheck]
    rw [if_pos (by omega)]
  · simp [CacheManager.set, CacheManager.get, setF, getF, noFaults, saveMetadataF,
      removeItemF, alLookup_alInsert_self, getExpiredCheck]
    rw [if_pos (by omega)]
    simp [alLookup_alErase_self]
  · simp [CacheManager.set, CacheManager.get, setF, getF, noFaults, saveMetadataF,
      removeItemF, alLookup_alInsert_self, getExpiredCheck]
    rw [if_pos (by omega)]
    simp [alLookup_alErase_self]

/-- C9: on a hit of a fresh entry, `get` returns the blob and leaves the
whole state — the entry, its `createdAt`, every other entry, the blob files —
exactly as it was: no timestamp refresh, no LRU promotion. -/
theorem get_never_refreshes (c : Config) (s : CacheState) (now : Int) (k : String)
    (e : Entry) (v : List Nat)
    (hmd : alLookup s.metadata k = some e)
    (hblob : alLookup s.blobs (c.hash k) = some v)
    (hfresh : getExpiredCheck now e.timestamp c.ttlSeconds = false) :
    CacheManager.get c s now k = (some v, s) := by
  simp [CacheManager.get, getF, noFaults, hmd, hblob, hfresh]

/-- C9 witness: a concrete hit leaves the concrete state untouched. -/
theorem get_never_refreshes_witness :
    CacheManager.get demoConfig c9State 11 "k" = (some [1, 2], c9State) :=
  get_never_refreshes demoConfig c9State 11 "k" ⟨10, 2⟩ [1, 2] rfl rfl (by decide)

/-- C10: when the blob file exists but the index has no entry for the key,
`get` reads the default timestamp `0`, finds `now - 0 > ttl` for any TTL
below the current epoch time, and so misses — deleting the orphan blob as a
side effect while the index itself is unchanged. -/
theorem get_orphan_blob (c : Config) (s : CacheState) (now : Int) (k : String) (v : List Nat)
    (hmd : alLookup s.metadata k = none)
    (hblob : alLookup s.blobs (c.hash k) = some v)
    (httl : c.ttlSeconds < now) :
    (CacheManager.get c s now k).1 = none ∧
    alLookup (CacheManager.get c s now k).2.blobs (c.hash k) = none ∧
    (CacheManager.get c s now k).2.metadata = s.metadata := by
  have hexp : getExpiredCheck now 0 c.ttlSeconds = true := by
    simp [getExpiredCheck]; omega
  refine ⟨?_, ?_, ?_⟩ <;>
    simp [CacheManager.get, getF, noFaults, removeItemF, saveMetadataF, hmd, hblob, hexp,
      alLookup_alErase_self, alErase_absent _ _ hmd]

/-- C10 witness: a concrete orphan blob is deleted and reported as a miss. -/
theorem get_orphan_blob_witness :
    (CacheManager.get demoConfig c10State 5000 "k").1 = none ∧
    alLookup (CacheManager.get demoConfig c10State 5000 "k").2.blobs
      (demoConfig.hash "k") = none ∧
    (CacheManager.get demoConfig c10State 5000 "k").2.metadata = c10State.metadata :=
  get_orphan_blob demoConfig c10State 5000 "k" [5] rfl rfl (by decide)

theorem v600_length : v600.length = 600 := List.length_replicate 600 7

theorem set_no_evict (c : Config) (s : CacheState) (now : Int) (k : String) (v : List Nat)
    (h : ¬ c.maxSizeBytes < getCacheSize s) :
    CacheManager.set c s now k v =
      (true, { blobs := alInsert s.blobs (c.hash k) v,
               metadata := alInsert s.metadata k ⟨now, v.length⟩,
               metaFileSize := c.jsonSize (alInsert s.metadata k ⟨now, v.length⟩) }) := by
  simp [CacheManager.set, setF, noFaults, saveMetadataF, h]

set_option maxRecDepth 40000 in
/-- C2 counterexample: with ceiling 1000, after `set("a", 600B)` then
`set("b", 600B)` on a fresh cache, the entry `"a"` is still present (no
eviction sweep ran during the second `set`, because the sweep condition is
checked against the size measured before the new blob is written) and the
stored blobs total 1200 bytes, so the claimed final state — only `"b"`
present with total at most 800 — is false. -/
theorem second_set_triggers_no_eviction :
    alLookup c2After.metadata "a" = some ⟨100, 600⟩ ∧
    alLookup c2After.metadata "b" = some ⟨101, 600⟩ ∧
    blobsSize c2After.blobs = 1200 ∧
    ¬ (alLookup c2After.metadata "a" = none ∧ getCacheSize c2After ≤ 800) := by
  refine ⟨?_, ?_, ?_, ?_⟩ <;> decide

/-- C2 amended: the eviction check inside `set` uses the cache size measured
before the new blob is written, so `set("a", 600B)` then `set("b", 600B)`
under ceiling 1000 leaves both entries present with blob total 1200; the
sweep condition now holds, so the next `set` runs the sweep, which evicts the
older `"a"` first and stops once the total is at most 800 (80% of the
ceiling), leaving only `"b"`.  The hypotheses record what the scenario needs
from the external digest and JSON serialisation: distinct digests for the two
keys, and index files of realistic size (at most 400 bytes for one entry and
200 bytes where the sweep accounting needs it). -/
theorem eviction_deferred_to_next_set (c : Config) (t1 t2 : Int) (v : List Nat)
    (hmax : c.maxSizeBytes = 1000) (hlen : v.length = 600) (ht : t1 ≤ t2)
    (hhash : c.hash "a" ≠ c.hash "b")
    (hJ1 : c.jsonSize [("a", ⟨t1, 600⟩)] ≤ 400)
    (hJ2 : c.jsonSize [("a", ⟨t1, 600⟩), ("b", ⟨t2, 600⟩)] ≤ 200)
    (hJb : c.jsonSize [("b", ⟨t2, 600⟩)] ≤ 200) :
    alLookup (CacheManager.set c (CacheManager.set c emptyCache t1 "a" v).2
      t2 "b" v).2.metadata "a" = some ⟨t1, 600⟩ ∧
    alLookup (CacheManager.set c (CacheManager.set c emptyCache t1 "a" v).2
      t2 "b" v).2.metadata "b" = some ⟨t2, 600⟩ ∧
    c.maxSizeBytes < getCacheSize (CacheManager.set c
      (CacheManager.set c emptyCache t1 "a" v).2 t2 "b" v).2 ∧
    alLookup (cleanupOldItems c (CacheManager.set c
      (CacheManager.set c emptyCache t1 "a" v).2 t2 "b" v).2).metadata "a" = none ∧
    alLookup (cleanupOldItems c (CacheManager.set c
      (CacheManager.set c emptyCache t1 "a" v).2 t2 "b" v).2).metadata "b" = some ⟨t2, 600⟩ ∧
    alLookup (cleanupOldItems c (CacheManager.set c
      (CacheManager.set c emptyCache t1 "a" v).2 t2 "b" v).2).blobs (c.hash "a") = none ∧
    alLookup (cleanupOldItems c (CacheManager.set c
      (CacheManager.set c emptyCache t1 "a" v).2 t2 "b" v).2).blobs (c.hash "b") = some v ∧
    getCacheSize (cleanupOldItems c (CacheManager.set c
      (CacheManager.set c emptyCache t1 "a" v).2 t2 "b" v).2) ≤ 800 := by
  have hne : (c.hash "a" == c.hash "b") = false := by
    simp [hhash]
  have hne2 : (c.hash "b" == c.hash "a") = false := by
    simp
    exact fun h => hhash h.symm
  have hs1 : (CacheManager.set c emptyCache t1 "a" v).2 =
      { blobs := [(c.hash "a", v)], metadata := [("a", ⟨t1, 600⟩)],
        metaFileSize := c.jsonSize [("a", ⟨t1, 600⟩)] } := by
    rw [set_no_evict c emptyCache t1 "a" v (by simp [emptyCache, getCacheSize, blobsSize])]
    simp [emptyCache, alInsert, hlen]
  have hs2 : (CacheManager.set c (CacheManager.set c emptyCache t1 "a" v).2 t2 "b" v).2 =
      { blobs := [(c.hash "a", v), (c.hash "b", v)],
        metadata := [("a", ⟨t1, 600⟩), ("b", ⟨t2, 600⟩)],
        metaFileSize := c.jsonSize [("a", ⟨t1, 600⟩), ("b", ⟨t2, 600⟩)] } := by
    rw [hs1]
    rw [set_no_evict]
    · simp [alInsert, hne, hlen]
    · simp [getCacheSize, blobsSize, hlen, hmax]
      omega
  have hclean : cleanupOldItems c
      { blobs := [(c.hash "a", v), (c.hash "b", v)],
        metadata := [("a", ⟨t1, 600⟩), ("b", ⟨t2, 600⟩)],
        metaFileSize := c.jsonSize [("a", ⟨t1, 600⟩), ("b", ⟨t2, 600⟩)] } =
      { blobs := [(c.hash "b", v)], metadata := [("b", ⟨t2, 600⟩)],
        metaFileSize := c.jsonSize [("b", ⟨t2, 600⟩)] } := by
    have hsort : sortByTimestamp [("a", (⟨t1, 600⟩ : Entry)), ("b", ⟨t2, 600⟩)] =
        [("a", ⟨t1, 600⟩), ("b", ⟨t2, 600⟩)] := by
      simp [sortByTimestamp, insertByTs, ht]
    simp only [cleanupOldItems, cleanupOldItemsF, hsort]
    rw [if_neg (by simp)]
    rw [evictLoopF]
    rw [if_neg (by
      simp [getCacheSize, blobsSize, evictThreshold, hmax, hlen]
      omega)]
    simp only [removeItemF, noFaults, Bool.false_and, if_false, Bool.false_eq_true,
      saveMetadataF, ite_false]
    rw [evictLoopF]
    rw [if_pos (by
      simp [getCacheSize, blobsSize, evictThreshold, hmax, hlen]
      omega)]
    simp [alErase, List.filter_cons, hne2]
  rw [hs2, hclean]
  refine ⟨?_, ?_, ?_, ?_, ?_, ?_, ?_, ?_⟩
  · simp [alLookup, List.find?]
  · simp [alLookup, List.find?]
  · simp [getCacheSize, blobsSize, hlen, hmax]
    omega
  · simp [alLookup, List.find?]
  · simp [alLookup, List.find?]
  · simp [alLookup, List.find?, hne2]
  · simp [alLookup, List.find?]
  · simp [getCacheSize, blobsSize, hlen]
    omega

/-- C2 amended witness: the deferred-eviction behaviour at the concrete
configuration (ceiling 1000, identity digest, 50-bytes-per-entry index). -/
theorem eviction_deferred_to_next_set_witness :
    alLookup (CacheManager.set demoConfig (CacheManager.set demoConfig emptyCache 100 "a" v600).2
      101 "b" v600).2.metadata "a" = some ⟨100, 600⟩ ∧
    alLookup (CacheManager.set demoConfig (CacheManager.set demoConfig emptyCache 100 "a" v600).2
      101 "b" v600).2.metadata "b" = some ⟨101, 600⟩ ∧
    demoConfig.maxSizeBytes < getCacheSize (CacheManager.set demoConfig
      (CacheManager.set demoConfig emptyCache 100 "a" v600).2 101 "b" v600).2 ∧
    alLookup (cleanupOldItems demoConfig (CacheManager.set demoConfig
      (CacheManager.set demoConfig emptyCache 100 "a" v600).2 101 "b" v600).2).metadata "a"
      = none ∧
    alLookup (cleanupOldItems demoConfig (CacheManager.set demoConfig
      (CacheManager.set demoConfig emptyCache 100 "a" v600).2 101 "b" v600).2).metadata "b"
      = some ⟨101, 600⟩ ∧
    alLookup (cleanupOldItems demoConfig (CacheManager.set demoConfig
      (CacheManager.set demoConfig emptyCache 100 "a" v600).2 101 "b" v600).2).blobs
      (demoConfig.hash "a") = none ∧
    alLookup (cleanupOldItems demoConfig (CacheManager.set demoConfig
      (CacheManager.set demoConfig emptyCache 100 "a" v600).2 101 "b" v600).2).blobs
      (demoConfig.hash "b") = some v600 ∧
    getCacheSize (cleanupOldItems demoConfig (CacheManager.set demoConfig
      (CacheManager.set demoConfig emptyCache 100 "a" v600).2 101 "b" v600).2) ≤ 800 :=
  eviction_deferred_to_next_set demoConfig 100 101 v600 rfl v600_length (by decide)
    (by decide) (by decide) (by decide) (by decide)

/-- C7 counterexample: an I/O fault that hits only the `metadata.json`
persist is swallowed inside `_save_metadata`, so `set` still returns `True`,
not the `False` the claim requires for faults inside `set`. -/
theorem save_fault_set_returns_true :
    (setF saveFaultOracle demoConfig emptyCache 100 "k" [1, 2]).1 = true ∧
    saveFaultOracle.saveMetaFault = true := by
  refine ⟨?_, rfl⟩
  decide

/-- C7 amended: no fault ever propagates out of `get` or `set` (both are
total functions of the fault oracle by construction); a fault in the size
computation, the blob write or the blob stat makes `set` return `False`, and
a fault while reading the blob makes `get` return `None`; but a fault that
hits only the `metadata.json` persist is caught one level deeper, inside
`_save_metadata`, and `set` then still returns `True`. -/
theorem io_faults_stay_internal (o : FaultOracle) (c : Config) (s : CacheState)
    (now : Int) (k : String) (v : List Nat) :
    (o.sizeFault = true ∨ o.writeBlobFault = true ∨ o.statFault = true →
      (setF o c s now k v).1 = false) ∧
    (o.readBlobFault = true → (getF o c s now k).1 = none) ∧
    (o.saveMetaFault = true ∧ o.sizeFault = false ∧ o.writeBlobFault = false ∧
      o.statFault = false → (setF o c s now k v).1 = true) := by
  refine ⟨?_, ?_, ?_⟩
  · intro h
    rcases h with h | h | h
    · simp [setF, h]
    · simp only [setF]
      split
      · rfl
      · simp [h]
    · simp only [setF]
      split
      · rfl
      · cases hw : o.writeBlobFault
        · simp [hw, h]
        · simp [hw]
  · intro h
    simp only [getF]
    cases alLookup s.blobs (c.hash k) with
    | none => rfl
    | some blob =>
      simp only []
      split
      · rfl
      · simp [h]
  · rintro ⟨h1, h2, h3, h4⟩
    simp [setF, saveMetadataF, h1, h2, h3, h4]

/-- C7 amended witness: the three behaviours at concrete oracles — a blob
write fault fails the `set`, a blob read fault misses the `get`, and a
metadata-persist fault leaves `set` reporting success. -/
theorem io_faults_stay_internal_witness :
    (setF writeFaultOracle demoConfig c9State 20 "k2" [9]).1 = false ∧
    (getF readFaultOracle demoConfig c9State 11 "k").1 = none ∧
    (setF saveFaultOracle demoConfig c9State 20 "k2" [9]).1 = true :=
  ⟨(io_faults_stay_internal writeFaultOracle demoConfig c9State 20 "k2" [9]).1
      (Or.inr (Or.inl rfl)),
   (io_faults_stay_internal readFaultOracle demoConfig c9State 11 "k" []).2.1 rfl,
   (io_faults_stay_internal saveFaultOracle demoConfig c9State 20 "k2" [9]).2.2
      ⟨rfl, rfl, rfl, rfl⟩⟩

/-- C5: for every byte payload `p`, decrypting the result of encrypting `p`
under the same vault key returns exactly `p`.  (The Fernet scheme itself is
external library code, modelled from the spec's description of authenticated
symmetric encryption; the wrappers re-raise any failure.) -/
theorem encrypt_decrypt_roundtrip (key : Nat) (p : List Nat) :
    SecurityManager.decrypt_data key (SecurityManager.encrypt_data key p) = .ok p := by
  simp [SecurityManager.decrypt_data, SecurityManager.encrypt_data, fernetEncrypt,
    fernetDecrypt]

/-- C4: decrypting any byte string that is not an output of `encrypt_data`
under the vault's key fails with the explicit `InvalidToken` error — the
`Except` result is all-or-nothing, so no partial or garbage bytes are ever
returned, and `decrypt_data` re-raises rather than swallowing the failure. -/
theorem decrypt_foreign_fails (key : Nat) (tok : List Nat)
    (h : ∀ p : List Nat, tok ≠ SecurityManager.encrypt_data key p) :
    SecurityManager.decrypt_data key tok = .error .invalidToken := by
  cases tok with
  | nil => rfl
  | cons k rest =>
    by_cases hk : k = key
    · exact absurd (by simp [SecurityManager.encrypt_data, fernetEncrypt, hk]) (h rest)
    · simp [SecurityManager.decrypt_data, fernetDecrypt, hk]

/-- C4 witness: a concrete byte string that no encryption under key 3 can
produce is rejected with `InvalidToken`. -/
theorem decrypt_foreign_fails_witness :
    SecurityManager.decrypt_data 3 [4, 9] = .error .invalidToken :=
  decrypt_foreign_fails 3 [4, 9]
    (fun p hp => by simp [SecurityManager.encrypt_data, fernetEncrypt] at hp)

/-- C6 counterexample: the `validate_url` variant in `src/security.py` (one
of the claim's two cited implementations) accepts `ftp://host` — it only
requires a nonempty scheme and network location — so the claim that every
non-http(s) URL is rejected does not hold for it. -/
theorem security_py_accepts_ftp : Security.validate_url "ftp://host" = true := by
  decide

/-- C6 amended: `SecurityManager.validate_url` in `src/security_manager.py`
(the implementation the converter pipeline uses) rejects every URL that does
not start with `http://` or `https://`, and does so before the HEAD probe:
the result is `False` with the probe never consulted, for every possible
probe behaviour.  The `src/security.py` variant does not restrict the
scheme. -/
theorem validate_url_scheme_precedes_probe (blocked : List String)
    (probe : String → Option HeadResponse) (url : String)
    (h : schemeOk url = false) :
    SecurityManager.validate_url blocked probe url = (false, false) := by
  simp [SecurityManager.validate_url, h]

/-- C6 amended witness: `ftp://host` is rejected with no network call, under
an arbitrary concrete probe. -/
theorem validate_url_scheme_precedes_probe_witness :
    SecurityManager.validate_url [] demoProbe "ftp://host" = (false, false) ∧
    schemeOk "ftp://host" = false :=
  ⟨validate_url_scheme_precedes_probe [] demoProbe "ftp://host" (by decide), by decide⟩

/-- C8: a file exactly at the 100 MiB ceiling that exists, has an
allow-listed media type and no risky byte patterns is accepted; a file one
byte over the ceiling is rejected (whatever its other attributes, since the
strict `>` size check fires before the remaining checks). -/
theorem validate_file_size_boundary (f g : FileModel)
    (hfe : f.pathExists = true) (hfs : f.size = maxFileSize)
    (hfm : allowedMimeTypes.contains f.mime = true)
    (hfc : containsMaliciousContent f.content = false)
    (hgs : g.size = maxFileSize + 1) :
    SecurityManager.validate_file f = true ∧ SecurityManager.validate_file g = false := by
  constructor
  · have hfm2 : f.mime ∈ allowedMimeTypes := by simpa using hfm
    simp [SecurityManager.validate_file, hfe, hfm2, hfc, hfs]
  · cases he : g.pathExists
    · simp [SecurityManager.validate_file, he]
    · simp [SecurityManager.validate_file, he, hgs]

/-- C8 witness: the boundary at the concrete sizes 104857600 and 104857601
bytes, for an existing PDF with benign content. -/
theorem validate_file_size_boundary_witness :
    SecurityManager.validate_file ⟨true, 104857600, "application/pdf", ""⟩ = true ∧
    SecurityManager.validate_file ⟨true, 104857601, "application/pdf", ""⟩ = false :=
  validate_file_size_boundary ⟨true, 104857600, "application/pdf", ""⟩
    ⟨true, 104857601, "application/pdf", ""⟩ rfl (by decide) (by decide) (by decide)
    (by decide)

end PdfWordToPic
